import Mathlib

/-!
Verification of the `itmdump` packet decoder (`src/bin/itmdump.rs`).

The program reads a byte stream, repeatedly parses a one-byte packet
header (bits [7:3] = stimulus port, bits [2:0] = type code), reads the
payload dictated by the type code, and forwards the payload to stdout
when the header's port equals the configured stimulus port.

We shallowly embed the decode loop (`run`, lines 106-150 of the source)
over finite byte streams modelled as `List Nat` (each byte `< 256`).
The end of the list models the point at which `read_exact` fails with
`ErrorKind::UnexpectedEof`; on such a failure the real loop sleeps and
retries, and a finite stream yields no further bytes, so the observable
output of the real loop on a finite stream is exactly what our `run`
computes.
-/

namespace Itmdump

/-- Error kinds relevant to the decode loop, mirroring the
`io::ErrorKind` values the source matches on (line 141-148): the
`UnexpectedEof` kind is treated as transient; every other kind falls
into the wildcard arm. -/
inductive ErrKind where
  | unexpectedEof
  | notFound
  | permissionDenied
  | brokenPipe
  | wouldBlock
  | interrupted
  | writeZero
  | otherErr
deriving DecidableEq, Repr

/-- Result of one iteration of the decode loop (the closure at source
lines 109-139): the bytes written to stdout during the iteration, the
stream remaining after the iteration, and the error (if any) returned
by the closure. -/
structure IterResult where
  out : List Nat
  rest : List Nat
  err : Option ErrKind
deriving DecidableEq, Repr

/-- One iteration of the decode loop, embedded from source lines
109-139.  `read_exact` of `n` bytes succeeds exactly when `n` bytes
remain; when fewer remain it consumes them all and fails with
`UnexpectedEof`, and no write to stdout happens (the `try!` aborts the
closure before `write_all`).  A header whose port (`header >> 3`)
differs from the configured stimulus port causes an early `return
Ok(())` at lines 114-116, before the type-code dispatch. -/
def iteration (stimPort : Nat) : List Nat → IterResult
  | [] => ⟨[], [], some ErrKind.unexpectedEof⟩
  | header :: s =>
    if header >>> 3 ≠ stimPort then
      ⟨[], s, none⟩
    else
      match header &&& 0b111 with
      | 1 =>
        match s with
        | payload :: s' => ⟨[payload], s', none⟩
        | [] => ⟨[], [], some ErrKind.unexpectedEof⟩
      | 2 =>
        match s with
        | b0 :: b1 :: s' => ⟨[b0, b1], s', none⟩
        | _ => ⟨[], [], some ErrKind.unexpectedEof⟩
      | 3 =>
        match s with
        | b0 :: b1 :: b2 :: b3 :: s' => ⟨[b0, b1, b2, b3], s', none⟩
        | _ => ⟨[], [], some ErrKind.unexpectedEof⟩
      | _ => ⟨[], s, none⟩

/-- A successful iteration consumed at least the header byte, so the
remaining stream is strictly shorter. -/
lemma iteration_err_none_rest_lt (stimPort : Nat) (s : List Nat)
    (h : (iteration stimPort s).err = none) :
    (iteration stimPort s).rest.length < s.length := by
  cases s with
  | nil => simp [iteration] at h
  | cons header s =>
    by_cases hp : header >>> 3 ≠ stimPort
    · simp [iteration, hp]
    · simp only [iteration, if_neg hp] at h ⊢
      generalize header &&& 0b111 = t at h ⊢
      rcases t with _ | _ | _ | _ | t
      · simp
      · cases s with
        | nil => simp at h
        | cons p s' => simp; omega
      · cases s with
        | nil => simp at h
        | cons b0 s' =>
          cases s' with
          | nil => simp at h
          | cons b1 s'' => simp; omega
      · cases s with
        | nil => simp at h
        | cons b0 s' =>
          cases s' with
          | nil => simp at h
          | cons b1 s'' =>
            cases s'' with
            | nil => simp at h
            | cons b2 s3 =>
              cases s3 with
              | nil => simp at h
              | cons b3 s4 => simp; omega
      · simp

/-- The decode loop (source lines 106-150) run over a finite stream:
the concatenation of all bytes written to stdout, obtained by folding
`iteration` until a read fails.  Once the stream is exhausted every
further `read_exact` fails with `UnexpectedEof` and the loop sleeps and
retries forever, producing no further output, so the function returns
at that point. -/
def run (stimPort : Nat) (s : List Nat) : List Nat :=
  let r := iteration stimPort s
  if h : r.err = none then r.out ++ run stimPort r.rest else r.out
termination_by s.length
decreasing_by exact iteration_err_none_rest_lt stimPort s h

lemma run_unfold (stimPort : Nat) (s : List Nat) :
    run stimPort s =
      if (iteration stimPort s).err = none then
        (iteration stimPort s).out ++ run stimPort (iteration stimPort s).rest
      else (iteration stimPort s).out := by
  rw [run]
  split <;> rfl

/-- Payload size table of the ITM header type code, from the match at
source lines 118-139 (and §3 of the design document): codes 1, 2, 3
carry 1, 2, 4 payload bytes; all other codes carry none. -/
def payloadLen (typeCode : Nat) : Nat :=
  match typeCode with
  | 1 => 1
  | 2 => 2
  | 3 => 4
  | _ => 0

/-- A framed ITM packet: a header byte followed by its payload bytes. -/
structure Packet where
  header : Nat
  payload : List Nat
deriving DecidableEq, Repr

/-- A packet is well formed when its payload has exactly the length its
header's type code dictates. -/
abbrev Packet.wf (p : Packet) : Prop :=
  p.payload.length = payloadLen (p.header &&& 0b111)

/-- The byte stream obtained by concatenating a list of packets. -/
def encode (ps : List Packet) : List Nat :=
  (ps.map fun p => p.header :: p.payload).flatten

/-- Modelled from the spec: the reference output demanded by §8
("output equal to the concatenation of only the matching-port packets'
payloads").  Compared against `run` to settle the filtering claims. -/
def specOutput (stimPort : Nat) (ps : List Packet) : List Nat :=
  ((ps.filter fun p => p.header >>> 3 == stimPort).map Packet.payload).flatten

/-- Actions the decode loop can take after an iteration returns an
error (source lines 140-149), plus the `process::exit` action that only
`main` ever performs on startup failure (source line 75). -/
inductive LoopAction where
  | sleepMillis (ms : Nat)
  | logError
  | exitProcess (code : Nat)
deriving DecidableEq, Repr

/-- Error dispatch of the decode loop, embedded from the `match
e.kind()` at source lines 141-148: `UnexpectedEof` sleeps 100 ms;
every other kind is logged; the loop then continues in either case. -/
def onIterationError (e : ErrKind) : LoopAction :=
  match e with
  | ErrKind.unexpectedEof => LoopAction.sleepMillis 100
  | _ => LoopAction.logError

/-- Small-step transition relation of the decode loop on states
`(remaining stream, output so far)`, mirroring the branches of the
iteration closure that complete without error: skip a non-matching
header, forward the 1-, 2- or 4-byte payload of a matching header, or
discard a matching header with an unrecognized type code. -/
inductive Step (stimPort : Nat) : List Nat × List Nat → List Nat × List Nat → Prop where
  | skip (header : Nat) (s out : List Nat) :
      header >>> 3 ≠ stimPort → Step stimPort (header :: s, out) (s, out)
  | forward1 (header b : Nat) (s out : List Nat) :
      header >>> 3 = stimPort → header &&& 0b111 = 1 →
      Step stimPort (header :: b :: s, out) (s, out ++ [b])
  | forward2 (header b0 b1 : Nat) (s out : List Nat) :
      header >>> 3 = stimPort → header &&& 0b111 = 2 →
      Step stimPort (header :: b0 :: b1 :: s, out) (s, out ++ [b0, b1])
  | forward4 (header b0 b1 b2 b3 : Nat) (s out : List Nat) :
      header >>> 3 = stimPort → header &&& 0b111 = 3 →
      Step stimPort (header :: b0 :: b1 :: b2 :: b3 :: s, out) (s, out ++ [b0, b1, b2, b3])
  | unknown (header : Nat) (s out : List Nat) :
      header >>> 3 = stimPort → payloadLen (header &&& 0b111) = 0 →
      Step stimPort (header :: s, out) (s, out)

/-! Helper lemmas. -/

lemma and_seven_le (h : Nat) : h &&& 0b111 ≤ 7 :=
  Nat.and_le_right

lemma shiftRight_three_lt (h : Nat) (hh : h < 256) : h >>> 3 < 32 := by
  rw [Nat.shiftRight_eq_div_pow]
  omega

lemma iteration_skip (stimPort header : Nat) (s : List Nat)
    (hne : header >>> 3 ≠ stimPort) :
    iteration stimPort (header :: s) = ⟨[], s, none⟩ := by
  simp [iteration, hne]

lemma run_skip (stimPort header : Nat) (s : List Nat)
    (hne : header >>> 3 ≠ stimPort) :
    run stimPort (header :: s) = run stimPort s := by
  rw [run_unfold, iteration_skip stimPort header s hne]
  simp

lemma iteration_unknown_type (stimPort header : Nat) (s : List Nat)
    (h1 : header &&& 0b111 ≠ 1) (h2 : header &&& 0b111 ≠ 2)
    (h3 : header &&& 0b111 ≠ 3) :
    iteration stimPort (header :: s) = ⟨[], s, none⟩ := by
  by_cases hp : header >>> 3 ≠ stimPort
  · simp [iteration, hp]
  · simp only [iteration, if_neg hp]

lemma run_unknown_type (stimPort header : Nat) (s : List Nat)
    (h1 : header &&& 0b111 ≠ 1) (h2 : header &&& 0b111 ≠ 2)
    (h3 : header &&& 0b111 ≠ 3) :
    run stimPort (header :: s) = run stimPort s := by
  rw [run_unfold, iteration_unknown_type stimPort header s h1 h2 h3]
  simp

lemma iteration_matching (stimPort header : Nat) (s : List Nat)
    (hp : header >>> 3 = stimPort)
    (ht : header &&& 0b111 = 1 ∨ header &&& 0b111 = 2 ∨ header &&& 0b111 = 3)
    (hlen : payloadLen (header &&& 0b111) ≤ s.length) :
    iteration stimPort (header :: s) =
      ⟨s.take (payloadLen (header &&& 0b111)),
       s.drop (payloadLen (header &&& 0b111)), none⟩ := by
  rcases ht with ht | ht | ht
  · cases s with
    | nil => simp [ht, payloadLen] at hlen
    | cons p s' => simp [iteration, hp, ht, payloadLen]
  · rcases s with _ | ⟨b0, _ | ⟨b1, s'⟩⟩
    · simp [ht, payloadLen] at hlen
    · simp [ht, payloadLen] at hlen
    · simp [iteration, hp, ht, payloadLen]
  · rcases s with _ | ⟨b0, _ | ⟨b1, _ | ⟨b2, _ | ⟨b3, s'⟩⟩⟩⟩
    · simp [ht, payloadLen] at hlen
    · simp [ht, payloadLen] at hlen
    · simp [ht, payloadLen] at hlen
    · simp [ht, payloadLen] at hlen
    · simp [iteration, hp, ht, payloadLen]

lemma run_matching (stimPort header : Nat) (s : List Nat)
    (hp : header >>> 3 = stimPort)
    (ht : header &&& 0b111 = 1 ∨ header &&& 0b111 = 2 ∨ header &&& 0b111 = 3)
    (hlen : payloadLen (header &&& 0b111) ≤ s.length) :
    run stimPort (header :: s) =
      s.take (payloadLen (header &&& 0b111)) ++
        run stimPort (s.drop (payloadLen (header &&& 0b111))) := by
  rw [run_unfold, iteration_matching stimPort header s hp ht hlen]
  simp


lemma run_nil (stimPort : Nat) : run stimPort [] = [] := by
  rw [run_unfold]
  simp [iteration]

/-- Soundness and completeness of the step relation with respect to the
iteration function: `Step` relates a state to its successor exactly
when the iteration on the remaining stream succeeds, consumes the
stream as `iteration` says, and appends to the output what `iteration`
writes. -/
lemma step_iff_iteration (stimPort : Nat) (st st' : List Nat × List Nat) :
    Step stimPort st st' ↔
      ((iteration stimPort st.1).err = none ∧ st'.1 = (iteration stimPort st.1).rest ∧
        st'.2 = st.2 ++ (iteration stimPort st.1).out) := by
  constructor
  · intro h
    cases h with
    | skip header s0 out0 hne =>
      rw [iteration_skip stimPort header s0 hne]
      simp
    | forward1 header b s0 out0 hp ht =>
      have he : iteration stimPort (header :: b :: s0) = ⟨[b], s0, none⟩ := by
        simp [iteration, hp, ht]
      rw [he]
      simp
    | forward2 header b0 b1 s0 out0 hp ht =>
      have he : iteration stimPort (header :: b0 :: b1 :: s0) = ⟨[b0, b1], s0, none⟩ := by
        simp [iteration, hp, ht]
      rw [he]
      simp
    | forward4 header b0 b1 b2 b3 s0 out0 hp ht =>
      have he : iteration stimPort (header :: b0 :: b1 :: b2 :: b3 :: s0) =
          ⟨[b0, b1, b2, b3], s0, none⟩ := by
        simp [iteration, hp, ht]
      rw [he]
      simp
    | unknown header s0 out0 hp hlen =>
      have h1 : header &&& 0b111 ≠ 1 := fun hh => by simp [hh, payloadLen] at hlen
      have h2 : header &&& 0b111 ≠ 2 := fun hh => by simp [hh, payloadLen] at hlen
      have h3 : header &&& 0b111 ≠ 3 := fun hh => by simp [hh, payloadLen] at hlen
      rw [iteration_unknown_type stimPort header s0 h1 h2 h3]
      simp
  · obtain ⟨s, out⟩ := st
    obtain ⟨s', out'⟩ := st'
    rintro ⟨he, hs, ho⟩
    simp only at he hs ho
    cases s with
    | nil => simp [iteration] at he
    | cons header s0 =>
      by_cases hp : header >>> 3 ≠ stimPort
      · rw [iteration_skip stimPort header s0 hp] at hs ho
        simp at hs ho
        subst hs; subst ho
        exact Step.skip _ _ _ hp
      · push_neg at hp
        rcases hgen : header &&& 0b111 with _ | _ | _ | _ | t
        · have h1 : header &&& 0b111 ≠ 1 := by omega
          have h2 : header &&& 0b111 ≠ 2 := by omega
          have h3 : header &&& 0b111 ≠ 3 := by omega
          rw [iteration_unknown_type stimPort header s0 h1 h2 h3] at hs ho
          simp at hs ho
          subst hs; subst ho
          exact Step.unknown _ _ _ hp (by rw [hgen]; rfl)
        · cases s0 with
          | nil => simp [iteration, hp, hgen] at he
          | cons b s1 =>
            have hi : iteration stimPort (header :: b :: s1) = ⟨[b], s1, none⟩ := by
              simp [iteration, hp, hgen]
            rw [hi] at hs ho
            simp at hs ho
            subst hs; subst ho
            exact Step.forward1 _ _ _ _ hp (by rw [hgen])
        · rcases s0 with _ | ⟨b0, _ | ⟨b1, s1⟩⟩
          · simp [iteration, hp, hgen] at he
          · simp [iteration, hp, hgen] at he
          · have hi : iteration stimPort (header :: b0 :: b1 :: s1) = ⟨[b0, b1], s1, none⟩ := by
              simp [iteration, hp, hgen]
            rw [hi] at hs ho
            simp at hs ho
            subst hs; subst ho
            exact Step.forward2 _ _ _ _ _ hp (by rw [hgen])
        · rcases s0 with _ | ⟨b0, _ | ⟨b1, _ | ⟨b2, _ | ⟨b3, s1⟩⟩⟩⟩
          · simp [iteration, hp, hgen] at he
          · simp [iteration, hp, hgen] at he
          · simp [iteration, hp, hgen] at he
          · simp [iteration, hp, hgen] at he
          · have hi : iteration stimPort (header :: b0 :: b1 :: b2 :: b3 :: s1) =
                ⟨[b0, b1, b2, b3], s1, none⟩ := by
              simp [iteration, hp, hgen]
            rw [hi] at hs ho
            simp at hs ho
            subst hs; subst ho
            exact Step.forward4 _ _ _ _ _ _ _ hp (by rw [hgen])
        · have h1 : header &&& 0b111 ≠ 1 := by omega
          have h2 : header &&& 0b111 ≠ 2 := by omega
          have h3 : header &&& 0b111 ≠ 3 := by omega
          rw [iteration_unknown_type stimPort header s0 h1 h2 h3] at hs ho
          simp at hs ho
          subst hs; subst ho
          refine Step.unknown _ _ _ hp ?_
          rw [hgen]
          rfl


/-! Claim theorems. -/

/-- C1 (refuted; evaluation of the code at the failing input): the
claim says the payload size dictated by the type code is consumed
regardless of the port match.  The code instead returns from the
iteration before the type-code dispatch when the port does not match:
header `0x0A` has port 1 and type code 2 (a 2-byte payload), yet with
configured port 0 the iteration consumes only the header byte and
leaves both payload bytes in the stream. -/
theorem header_type_two_nonmatching_port_consumes_no_payload :
    (0x0A : Nat) >>> 3 = 1 ∧ (0x0A : Nat) &&& 0b111 = 2 ∧
      payloadLen ((0x0A : Nat) &&& 0b111) = 2 ∧
      iteration 0 [0x0A, 0x01, 0x77] = ⟨[], [0x01, 0x77], none⟩ := by
  decide

/-- C2 (refuted; evaluation of the code at the failing input): for the
well-formed single-packet stream `encode [⟨10, [1, 119]⟩]` (header
`0x0A`: port 1, type code 2) with configured port 0, the spec demands
the empty output (no packet matches), but the decode loop emits
`[119]`: after skipping the non-matching header without consuming its
payload, it misreads payload byte `0x01` as a matching 1-byte header
and forwards payload byte `0x77`. -/
theorem packet_stream_output_differs_from_spec_filter :
    Packet.wf ⟨0x0A, [0x01, 0x77]⟩ ∧
      specOutput 0 [⟨0x0A, [0x01, 0x77]⟩] = [] ∧
      run 0 (encode [⟨0x0A, [0x01, 0x77]⟩]) = [0x77] := by
  refine ⟨by decide, by decide, ?_⟩
  simp [encode, run_unfold, iteration]

/-- C3 (refuted; evaluation of the code at the failing input): byte
`0x77` is a payload byte of the non-matching packet
`⟨0x0A, [0x01, 0x77]⟩`, yet it appears in the output sink when the
decoder runs with configured port 0. -/
theorem nonmatching_packet_payload_byte_forwarded :
    run 0 [0x0A, 0x01, 0x77] = [0x77] ∧ (0x77 : Nat) ∈ [(0x01 : Nat), 0x77] := by
  refine ⟨?_, by decide⟩
  simp [run_unfold, iteration]

/-- C4: for a header whose port matches the configured stimulus port
and whose type code is 1, 2 or 3, the decoder reads exactly 1, 2 or 4
payload bytes (when the stream holds them) and writes exactly those
bytes, in their original order, to the output sink: the iteration
outputs `s.take n` and consumes `s.drop n` with `n` the dictated
payload size, and the loop output continues with those bytes in
front. -/
theorem matching_header_forwards_exact_payload (stimPort header : Nat) (s : List Nat)
    (hp : header >>> 3 = stimPort)
    (ht : header &&& 0b111 = 1 ∨ header &&& 0b111 = 2 ∨ header &&& 0b111 = 3)
    (hlen : payloadLen (header &&& 0b111) ≤ s.length) :
    iteration stimPort (header :: s) =
      ⟨s.take (payloadLen (header &&& 0b111)),
       s.drop (payloadLen (header &&& 0b111)), none⟩ ∧
    run stimPort (header :: s) =
      s.take (payloadLen (header &&& 0b111)) ++
        run stimPort (s.drop (payloadLen (header &&& 0b111))) :=
  ⟨iteration_matching stimPort header s hp ht hlen,
   run_matching stimPort header s hp ht hlen⟩

theorem matching_header_forwards_exact_payload_witness :
    iteration 0 [2, 0x11, 0x22] = ⟨[0x11, 0x22], [], none⟩ ∧
      run 0 [2, 0x11, 0x22] = [0x11, 0x22] ++ run 0 [] := by
  have h := matching_header_forwards_exact_payload 0 2 [0x11, 0x22]
    (by decide) (by decide) (by decide)
  simpa [payloadLen] using h

/-- C5: a header whose type code is not 1, 2 or 3 consumes zero payload
bytes, whatever the port: the iteration leaves the remaining stream
untouched, and the loop continues with the very next byte as the next
header. -/
theorem unrecognized_type_code_consumes_zero_payload (stimPort header : Nat)
    (s : List Nat)
    (ht : ¬(header &&& 0b111 = 1 ∨ header &&& 0b111 = 2 ∨ header &&& 0b111 = 3)) :
    iteration stimPort (header :: s) = ⟨[], s, none⟩ ∧
      run stimPort (header :: s) = run stimPort s := by
  push_neg at ht
  obtain ⟨h1, h2, h3⟩ := ht
  exact ⟨iteration_unknown_type stimPort header s h1 h2 h3,
    run_unknown_type stimPort header s h1 h2 h3⟩

theorem unrecognized_type_code_consumes_zero_payload_witness :
    iteration 0 [0x00, 0x01, 0x55] = ⟨[], [0x01, 0x55], none⟩ ∧
      run 0 [0x00, 0x01, 0x55] = run 0 [0x01, 0x55] :=
  unrecognized_type_code_consumes_zero_payload 0 0 [0x01, 0x55] (by decide)

/-- C6: an iteration either completes without error, or it fails with
the `UnexpectedEof` read error having written nothing to the output
sink: a strict portion of a packet payload is never forwarded, and in
particular a stream that ends mid-payload forwards none of that
packet's bytes. -/
theorem iteration_never_writes_partial_payload (stimPort : Nat) (s : List Nat) :
    (iteration stimPort s).err = none ∨
      ((iteration stimPort s).out = [] ∧
        (iteration stimPort s).err = some ErrKind.unexpectedEof) := by
  cases s with
  | nil => exact Or.inr ⟨rfl, rfl⟩
  | cons header s0 =>
    by_cases hp : header >>> 3 ≠ stimPort
    · left
      rw [iteration_skip stimPort header s0 hp]
    · push_neg at hp
      rcases hgen : header &&& 0b111 with _ | _ | _ | _ | t
      · left
        rw [iteration_unknown_type stimPort header s0 (by omega) (by omega) (by omega)]
      · cases s0 with
        | nil => right; constructor <;> simp [iteration, hp, hgen]
        | cons b s1 => left; simp [iteration, hp, hgen]
      · rcases s0 with _ | ⟨b0, _ | ⟨b1, s1⟩⟩
        · right; constructor <;> simp [iteration, hp, hgen]
        · right; constructor <;> simp [iteration, hp, hgen]
        · left; simp [iteration, hp, hgen]
      · rcases s0 with _ | ⟨b0, _ | ⟨b1, _ | ⟨b2, _ | ⟨b3, s1⟩⟩⟩⟩
        · right; constructor <;> simp [iteration, hp, hgen]
        · right; constructor <;> simp [iteration, hp, hgen]
        · right; constructor <;> simp [iteration, hp, hgen]
        · right; constructor <;> simp [iteration, hp, hgen]
        · left; simp [iteration, hp, hgen]
      · left
        rw [iteration_unknown_type stimPort header s0 (by omega) (by omega) (by omega)]

/-- C7: the decode loop maps the transient `UnexpectedEof` condition to
a 100 ms sleep (and no error log), maps every other error kind to a
log-and-continue action, and never maps any error to a process exit:
no decode-loop error terminates the process. -/
theorem decode_loop_error_dispatch :
    onIterationError ErrKind.unexpectedEof = LoopAction.sleepMillis 100 ∧
      (∀ e : ErrKind, e ≠ ErrKind.unexpectedEof →
        onIterationError e = LoopAction.logError) ∧
      (∀ (e : ErrKind) (c : Nat), onIterationError e ≠ LoopAction.exitProcess c) := by
  refine ⟨rfl, ?_, ?_⟩
  · intro e he
    cases e <;> simp_all [onIterationError]
  · intro e c
    cases e <;> simp [onIterationError]

theorem decode_loop_error_dispatch_witness :
    onIterationError ErrKind.brokenPipe = LoopAction.logError :=
  decode_loop_error_dispatch.2.1 ErrKind.brokenPipe (by decide)

/-- C8: a configured stimulus port greater than 31 can never equal the
port field of an 8-bit header, since `header >>> 3 < 32`; the decode
loop therefore forwards nothing on any byte stream. -/
theorem out_of_range_port_forwards_nothing (stimPort : Nat) (hport : 31 < stimPort)
    (s : List Nat) (hs : ∀ b ∈ s, b < 256) : run stimPort s = [] := by
  induction s with
  | nil => exact run_nil stimPort
  | cons header t ih =>
    have hh : header < 256 := hs header (List.mem_cons_self header t)
    have hlt : header >>> 3 < 32 := shiftRight_three_lt header hh
    have hne : header >>> 3 ≠ stimPort := by omega
    rw [run_skip stimPort header t hne]
    exact ih fun b hb => hs b (List.mem_cons_of_mem header hb)

theorem out_of_range_port_forwards_nothing_witness :
    31 < 32 ∧ run 32 [0x01, 0xAA] = [] :=
  ⟨by decide, out_of_range_port_forwards_nothing 32 (by decide) [0x01, 0xAA] (by decide)⟩

/-- C9: a header whose port does not match the configured stimulus port
makes the iteration return before the type-code dispatch, so exactly
one byte (the header) is consumed, nothing is written, and the byte
immediately after the non-matching header is decoded as the next
header. -/
theorem nonmatching_header_consumes_only_header_byte (stimPort header : Nat)
    (s : List Nat) (hne : header >>> 3 ≠ stimPort) :
    iteration stimPort (header :: s) = ⟨[], s, none⟩ ∧
      run stimPort (header :: s) = run stimPort s :=
  ⟨iteration_skip stimPort header s hne, run_skip stimPort header s hne⟩

theorem nonmatching_header_consumes_only_header_byte_witness :
    iteration 0 [0x09, 0xBB] = ⟨[], [0xBB], none⟩ ∧
      run 0 [0x09, 0xBB] = run 0 [0xBB] :=
  nonmatching_header_consumes_only_header_byte 0 0x09 [0xBB] (by decide)

/-- C10: the decode loop is deterministic: from any state (remaining
stream and output so far), the step relation extracted from the loop
body allows at most one successor state, so the bytes written to the
output sink are a function of the input bytes and the configured port
alone. -/
theorem decode_step_deterministic (stimPort : Nat) (a b c : List Nat × List Nat)
    (h1 : Step stimPort a b) (h2 : Step stimPort a c) : b = c := by
  rw [step_iff_iteration] at h1 h2
  obtain ⟨b1, b2⟩ := b
  obtain ⟨c1, c2⟩ := c
  simp only at h1 h2
  obtain ⟨-, hb1, hb2⟩ := h1
  obtain ⟨-, hc1, hc2⟩ := h2
  simp [hb1, hb2, hc1, hc2]

theorem decode_step_deterministic_witness :
    (([], [0xAA]) : List Nat × List Nat) = ([], [0xAA]) :=
  decode_step_deterministic 0 ([0x01, 0xAA], []) ([], [0xAA]) ([], [0xAA])
    (Step.forward1 0x01 0xAA [] [] (by decide) (by decide))
    (Step.forward1 0x01 0xAA [] [] (by decide) (by decide))

end Itmdump
